import Mathlib

/-!
Verification of the BroSync battle engine and judging pipeline.

The development shallowly embeds the battle coordination logic of
`apps/battles/services.py`, `apps/battles/consumers.py`,
`apps/battles/models.py` and the judging logic of
`apps/judge/local_sandbox.py` / `apps/judge/sandbox.py`.

Database rows become explicit record states; every Django
`filter(...).update(...)` becomes a conditional state transformer that
reports whether it changed the row; subprocess execution is abstracted
by an outcome type whose constructors correspond one-to-one to the
return branches of `LocalSandbox.execute`.
-/

namespace BroSync

/-! ### Python string primitives

`LocalSandbox.run` compares outputs with `str.splitlines`, per-line
`str.rstrip`, `"\n".join` and a final whole-string `str.strip`.  We
model those on `List Char`.  `isPySpace` covers the ASCII whitespace
characters stripped by `str.strip`/`str.rstrip`; `splitlinesGo` models
`str.splitlines` for the newline conventions "\n", "\r\n" and "\r"
(no final empty line when the text ends with a line break). -/

def isPySpace (c : Char) : Bool :=
  c = ' ' || c = '\t' || c = '\n' || c = '\r' || c = '\x0b' || c = '\x0c'

/-- Drop the longest suffix whose elements satisfy `p` (used for Python
`rstrip` on characters and for trimming trailing blank lines). -/
def dropTrail {α : Type} (p : α → Bool) (l : List α) : List α :=
  (l.reverse.dropWhile p).reverse

/-- Python `line.rstrip()`. -/
def pyRstripChars (l : List Char) : List Char :=
  dropTrail isPySpace l

/-- Python `s.strip()`: leading whitespace removed first, then trailing. -/
def pyStripChars (l : List Char) : List Char :=
  dropTrail isPySpace (l.dropWhile isPySpace)

/-- Worker for `str.splitlines`: accumulate the current line (reversed). -/
def splitlinesGo : List Char → List Char → List (List Char)
  | [], acc => if acc.isEmpty then [] else [acc.reverse]
  | '\r' :: '\n' :: t, acc => acc.reverse :: splitlinesGo t []
  | '\n' :: t, acc => acc.reverse :: splitlinesGo t []
  | '\r' :: t, acc => acc.reverse :: splitlinesGo t []
  | c :: t, acc => splitlinesGo t (c :: acc)

/-- Python `s.splitlines()`. -/
def pySplitlines (l : List Char) : List (List Char) :=
  splitlinesGo l []

/-- Python `"\n".join(lines)`. -/
def joinLines : List (List Char) → List Char
  | [] => []
  | [l] => l
  | l :: l2 :: ls => l ++ '\n' :: joinLines (l2 :: ls)

/-- The normalization `LocalSandbox.run` applies to the produced and the
expected output before comparing them:
`"\n".join(line.rstrip() for line in s.splitlines()).strip()`. -/
def normalizeChars (l : List Char) : List Char :=
  pyStripChars (joinLines ((pySplitlines l).map pyRstripChars))

def normalizeOutput (s : String) : String :=
  String.mk (normalizeChars s.data)

/-- Python `s.strip()` on `String`. -/
def pyStrip (s : String) : String :=
  String.mk (pyStripChars s.data)

/-- A line is blank (after the per-line rstrip) iff it has no characters. -/
def isBlankLine (l : List Char) : Bool :=
  l.isEmpty

/-- Modelled from the spec: the spec's output normalization, "compare
line-by-line with trailing-whitespace-per-line stripped and
leading/trailing blank lines trimmed".  Only the blank lines at either
end are removed; interior content, including leading whitespace of the
first non-blank line, is kept verbatim. -/
def specNormalizeChars (l : List Char) : List Char :=
  joinLines (dropTrail isBlankLine (((pySplitlines l).map pyRstripChars).dropWhile isBlankLine))

def specNormalize (s : String) : String :=
  String.mk (specNormalizeChars s.data)


/-! ### Python substring test (`needle in haystack`) -/

def startsWithChars : List Char → List Char → Bool
  | [], _ => true
  | _ :: _, [] => false
  | a :: as, b :: bs => a = b && startsWithChars as bs

def containsChars (hay needle : List Char) : Bool :=
  match hay with
  | [] => needle.isEmpty
  | _ :: t => startsWithChars needle hay || containsChars t needle

/-- Python `needle in hay` on strings. -/
def strContains (hay needle : String) : Bool :=
  containsChars hay.data needle.data

/-! ### `LocalSandbox.execute` (apps/judge/local_sandbox.py)

The subprocess world is abstracted by `ExecBehavior`: each constructor
corresponds to exactly one return branch of `LocalSandbox.execute`.
`ProcRun` is what the operating system does when the (successfully
compiled) program is run on a given stdin: its streams, its raw return
code, and its wall-clock duration; `subprocess.run(timeout=T)` kills
the process and raises `TimeoutExpired` iff the duration exceeds `T`
seconds.  The `WorkDirTrace` records the `tempfile.mkdtemp` /
`shutil.rmtree` lifecycle of the scratch directory (the `finally`
block removes it on every path on which it was created). -/

structure ExecResult where
  stdout : String
  stderr : String
  exit_code : Int
  execution_time_ms : Nat
  memory_used_kb : Nat
deriving DecidableEq, Repr

structure ProcRun where
  stdout : String
  stderr : String
  returncode : Int
  durationMs : Nat

structure WorkDirTrace where
  created : Bool
  removed : Bool
deriving DecidableEq, Repr

inductive ExecBehavior where
  /-- `LOCAL_LANG_CONFIG.get(language)` returned `None` (return before
  the temp dir is created). -/
  | unsupportedLanguage
  /-- `FileNotFoundError` while launching the compiler. -/
  | compilerNotFound (compiler : String)
  /-- The compile phase exited with a non-zero return code; carries the
  compiler's raw stderr. -/
  | compileFailed (compileStderr : String) (returncode : Int) (hrc : returncode ≠ 0)
  /-- `subprocess.TimeoutExpired` during the 30 s compile phase. -/
  | compileTimedOut
  /-- `FileNotFoundError` while launching the interpreter/runtime. -/
  | interpreterNotFound (interpreter : String)
  /-- Compilation (if any) succeeded; the program itself runs, with a
  per-stdin behavior. -/
  | runsProcess (f : String → ProcRun)
  /-- Any other host-side exception, caught by the outer
  `except Exception` (the flag records whether the temp dir had been
  created by the time it was raised). -/
  | hostError (message : String) (dirCreated : Bool)

/-- `LocalSandbox.execute(language, code, stdin)` with the instance's
timeout (seconds) made explicit.  Returns the result dict together with
the scratch-directory trace. -/
def execute (timeoutS : Nat) (b : ExecBehavior) (language stdin : String) :
    ExecResult × WorkDirTrace :=
  match b with
  | .unsupportedLanguage =>
      (⟨"", "Unsupported language: " ++ language, 1, 0, 0⟩, ⟨false, false⟩)
  | .compilerNotFound compiler =>
      (⟨"", "Compiler/interpreter '" ++ compiler ++ "' not found. Install it to run "
          ++ language ++ " code.", 1, 0, 0⟩, ⟨true, true⟩)
  | .compileFailed compileStderr returncode _ =>
      (⟨"", pyStrip compileStderr, returncode, 0, 0⟩, ⟨true, true⟩)
  | .compileTimedOut =>
      (⟨"", "Compilation timed out.", 1, 30000, 0⟩, ⟨true, true⟩)
  | .interpreterNotFound interpreter =>
      (⟨"", "Interpreter/runtime '" ++ interpreter ++ "' not found. Install it to run "
          ++ language ++ " code.", 1, 0, 0⟩, ⟨true, true⟩)
  | .runsProcess f =>
      let p := f stdin
      if 1000 * timeoutS < p.durationMs then
        (⟨"", "Time Limit Exceeded", -1, 1000 * timeoutS, 0⟩, ⟨true, true⟩)
      else
        (⟨pyStrip p.stdout, pyStrip p.stderr, p.returncode, p.durationMs, 0⟩, ⟨true, true⟩)
  | .hostError message dirCreated =>
      (⟨"", "Execution error: " ++ message, 1, 0, 0⟩, ⟨dirCreated, dirCreated⟩)

/-! ### `LocalSandbox.run` (apps/judge/local_sandbox.py) -/

structure TestCase where
  input_data : String
  expected_output : String

/-- The per-problem override of the sandbox timeout:
`self.timeout = max(1, time_limit_ms // 1000 + 2)`. -/
def runTimeoutSeconds (time_limit_ms : Nat) : Nat :=
  max 1 (time_limit_ms / 1000 + 2)

/-- The verdict record produced by `LocalSandbox.run` (the `error` text
field of the source dict is not modelled: no claim refers to it). -/
structure RunVerdict where
  status : String
  execution_time_ms : Nat
  memory_used_kb : Nat
  failed_case : Option Nat
deriving DecidableEq, Repr

/-- The four failure checks `run` applies to one test case's execute
result, in source order; `none` means the case passed. -/
def classifyCase (res : ExecResult) (expected : String) : Option String :=
  if (res.exit_code != 0)
      && (strContains res.stderr "not found" || strContains res.stderr "Unsupported") then
    some "compile_error"
  else if strContains res.stderr "Time Limit Exceeded" || (res.exit_code == -1) then
    some "time_limit"
  else if res.exit_code != 0 then
    some "runtime_error"
  else if normalizeOutput res.stdout != normalizeOutput expected then
    some "wrong_answer"
  else
    none

/-- The test-case loop of `run` (1-based `idx`, accumulated `total_ms`). -/
def runJudgeGo (timeoutS : Nat) (b : ExecBehavior) (language : String) :
    List TestCase → Nat → Nat → RunVerdict
  | [], _, totalMs => ⟨"accepted", totalMs, 0, none⟩
  | tc :: rest, idx, totalMs =>
    let res := (execute timeoutS b language tc.input_data).1
    let total := totalMs + res.execution_time_ms
    match classifyCase res tc.expected_output with
    | some st => ⟨st, total, 0, some idx⟩
    | none => runJudgeGo timeoutS b language rest (idx + 1) total

/-- `LocalSandbox.run(code, language, test_cases, time_limit_ms, ...)`. -/
def runJudge (b : ExecBehavior) (language : String) (test_cases : List TestCase)
    (time_limit_ms : Nat) : RunVerdict :=
  runJudgeGo (runTimeoutSeconds time_limit_ms) b language test_cases 1 0

/-! ### `DockerSandbox.execute` (apps/judge/sandbox.py)

Unlike `LocalSandbox.execute`, the Docker executor signals failures by
raising the typed exceptions of `core/exceptions/custom.py`; we embed
it as an `Except`.  Each `DockerOutcome` constructor corresponds to one
raise or return site of the source. -/

inductive SandboxErr where
  | codeExecutionError (message : String)
  | timeLimitExceeded
  | memoryLimitExceeded
deriving DecidableEq, Repr

inductive DockerOutcome where
  | unsupportedLanguage (language : String)
  | imageNotConfigured (language : String)
  | containerError (message : String)
  /-- `container.wait` timed out ("timed out" / "read timeout" in the
  exception message). -/
  | waitTimedOut
  /-- "oom" in the exception message. -/
  | oomKilled
  | otherFailure (message : String)
  | finished (stdout stderr : String) (statusCode : Int) (timeMs memKb : Nat)

def dockerExecute : DockerOutcome → Except SandboxErr ExecResult
  | .unsupportedLanguage l => .error (.codeExecutionError ("Unsupported language: " ++ l))
  | .imageNotConfigured l => .error (.codeExecutionError ("No Docker image configured for: " ++ l))
  | .containerError m => .error (.codeExecutionError ("Execution failed: " ++ m))
  | .waitTimedOut => .error .timeLimitExceeded
  | .oomKilled => .error .memoryLimitExceeded
  | .otherFailure m => .error (.codeExecutionError ("Execution error: " ++ m))
  | .finished o e c t m => .ok ⟨pyStrip o, pyStrip e, c, t, m⟩

/-! ### The battle state store (apps/battles/models.py)

`Battle`, `BattleParticipant`, `BattleSubmission` and the relevant
columns of `User` become one explicit state record; users and problems
are identified by `Nat` ids and timestamps are seconds.  Every Django
`filter(...).update(...)` below is a conditional state transformer
returning whether it matched the row, mirroring the compare-and-swap
contract the consumers rely on. -/

inductive BattleStatus where
  | waiting
  | active
  | completed
  | cancelled
deriving DecidableEq, Repr

inductive SubVerdict where
  | accepted
  | wrong_answer
  | time_limit
  | runtime_error
  | compile_error
  | pending
deriving DecidableEq, Repr

structure BattleSub where
  userId : Nat
  problemId : Nat
  status : SubVerdict
  points_earned : Nat
deriving DecidableEq, Repr

structure ParticipantRow where
  userId : Nat
  score : Nat
  problems_solved : Nat
  is_connected : Bool
deriving DecidableEq, Repr

structure UserRow where
  id : Nat
  battles_played : Nat
  battles_won : Nat
  rating : Nat
deriving DecidableEq, Repr

structure BattleState where
  status : BattleStatus
  winner : Option Nat
  startedAt : Option Nat
  endsAt : Option Nat
  endedAt : Option Nat
  problems : List Nat
  participants : List ParticipantRow
  submissions : List BattleSub
  users : List UserRow
deriving DecidableEq, Repr

def PROBLEM_POINTS : Nat := 10

def BATTLE_WIN_POINTS : Nat := 20

def DURATION_MINUTES : Nat := 30

/-! ### Activation (BattleConsumer, apps/battles/consumers.py) -/

/-- `BattleConsumer._mark_connected`. -/
def markConnected (userId : Nat) (s : BattleState) : BattleState :=
  { s with participants := s.participants.map (fun q =>
      if q.userId == userId then { q with is_connected := true } else q) }

/-- `BattleConsumer._both_connected`. -/
def bothConnected (s : BattleState) : Bool :=
  2 ≤ (s.participants.filter (fun q => q.is_connected)).length

/-- `BattleConsumer._try_activate_battle`: the
`filter(status='waiting').update(status='active', started_at=now,
ends_at=now + 30 min)` compare-and-swap; returns whether this caller
performed the transition. -/
def tryActivateBattle (now : Nat) (s : BattleState) : Bool × BattleState :=
  if s.status = BattleStatus.waiting then
    (true, { s with status := .active, startedAt := some now,
                    endsAt := some (now + DURATION_MINUTES * 60) })
  else
    (false, s)

structure ActivationEffects where
  activated : Bool
  started_timer : Bool
  broadcast_snapshot : Bool
deriving DecidableEq, Repr

/-- The activation branch of `BattleConsumer.connect` once both sides
are marked connected: attempt the transition, and start the countdown
task and broadcast the room-wide snapshot exactly when this caller
activated. -/
def connectActivationAttempt (now : Nat) (s : BattleState) :
    BattleState × ActivationEffects :=
  let r := tryActivateBattle now s
  (r.2, ⟨r.1, r.1, r.1⟩)

/-- A sequence of `_try_activate_battle` calls (one per connect event,
each with its own clock reading) applied to the shared battle row. -/
def activateCalls : List Nat → BattleState → List Bool × BattleState
  | [], s => ([], s)
  | t :: ts, s =>
    let r := tryActivateBattle t s
    let rest := activateCalls ts r.2
    (r.1 :: rest.1, rest.2)

/-- `Battle.seconds_remaining` (apps/battles/models.py). -/
def secondsRemaining (now : Nat) (s : BattleState) : Nat :=
  if s.status ≠ BattleStatus.active then 0
  else match s.endsAt with
    | none => 0
    | some e => e - now

/-! ### Winner computation and the three end paths -/

/-- Strict "ranks ahead of" for `order_by("-score", "-problems_solved")`. -/
def rankLt (a b : ParticipantRow) : Bool :=
  b.score < a.score || (a.score == b.score && b.problems_solved < a.problems_solved)

def insertRanked (a : ParticipantRow) : List ParticipantRow → List ParticipantRow
  | [] => [a]
  | b :: t => if rankLt a b then a :: b :: t else b :: insertRanked a t

/-- The participants ordered by `(-score, -problems_solved)` (the order
of rows tied on both keys is unspecified in SQL; insertion sort picks
one such order). -/
def rankParticipants : List ParticipantRow → List ParticipantRow
  | [] => []
  | a :: t => insertRanked a (rankParticipants t)

/-- The winner rule shared by `end_battle` (services.py) and
`_end_battle_sync_from_completed` (consumers.py): the top-ranked
participant wins iff their score strictly exceeds the runner-up's
(or there is no runner-up); otherwise a draw (`None`). -/
def computeWinner (ps : List ParticipantRow) : Option Nat :=
  match rankParticipants ps with
  | [] => none
  | [top] => some top.userId
  | top :: second :: _ => if second.score < top.score then some top.userId else none

/-- `User.objects.filter(id__in=ids).update(battles_played=F+1)`. -/
def bumpPlayed (ids : List Nat) (users : List UserRow) : List UserRow :=
  users.map (fun u => if u.id ∈ ids then { u with battles_played := u.battles_played + 1 } else u)

/-- `User.objects.filter(id=winner.id).update(battles_won=F+1, rating=F+20)`. -/
def bumpWinner (winnerId : Nat) (users : List UserRow) : List UserRow :=
  users.map (fun u =>
    if u.id == winnerId then
      { u with battles_won := u.battles_won + 1, rating := u.rating + BATTLE_WIN_POINTS }
    else u)

/-- The state written by the completing caller: status COMPLETED, the
computed winner, `ended_at = now`, and the user stat bumps. -/
def endedState (now : Nat) (s : BattleState) : BattleState :=
  let winner := computeWinner s.participants
  let played := bumpPlayed (s.participants.map (fun q => q.userId)) s.users
  { s with status := .completed, winner := winner, endedAt := some now,
           users := match winner with | some w => bumpWinner w played | none => played }

/-- `end_battle` (services.py): idempotent early return on COMPLETED,
otherwise transition + winner + stats; the returned flag records
whether this call broadcast `battle_ended`. -/
def endBattle (now : Nat) (s : BattleState) : BattleState × Bool :=
  if s.status = BattleStatus.completed then (s, false)
  else (endedState now s, true)

/-- `BattleConsumer._end_battle_sync_from_completed`: winner, stats and
broadcast for a battle whose row was already flipped to COMPLETED by
this caller's conditional update. -/
def endBattleFromCompleted (now : Nat) (s : BattleState) : BattleState :=
  let winner := computeWinner s.participants
  let played := bumpPlayed (s.participants.map (fun q => q.userId)) s.users
  { s with winner := winner, endedAt := some now,
           users := match winner with | some w => bumpWinner w played | none => played }

/-- One body of the `_run_timer` loop at the moment it would end the
battle: re-read the row, stop if no longer ACTIVE, end on
`remaining <= 0`. -/
def timerTimeoutTrigger (now : Nat) (s : BattleState) : BattleState × Bool :=
  if s.status ≠ BattleStatus.active then (s, false)
  else if secondsRemaining now s = 0 then endBattle now s
  else (s, false)

/-- Distinct problems with at least one ACCEPTED submission
(`values("problem_id").distinct().count()`). -/
def solvedDistinctCount (s : BattleState) : Nat :=
  (((s.submissions.filter (fun sub => sub.status == SubVerdict.accepted)).map
      (fun sub => sub.problemId)).dedup).length

/-- `_check_and_auto_end` (services.py): end via `end_battle` iff every
assigned problem has an accepted submission and the freshly re-read
battle is still ACTIVE. -/
def checkAndAutoEnd (now : Nat) (s : BattleState) : BattleState × Bool :=
  if s.problems.length = 0 then (s, false)
  else if s.problems.length ≤ solvedDistinctCount s then
    if s.status = BattleStatus.active then endBattle now s else (s, false)
  else (s, false)

/-- `BattleConsumer._handle_request_end`: the
`filter(id=battle_id, status='active').update(status='completed')`
compare-and-swap; only the caller whose update changed the row runs
`_end_battle_sync_from_completed`. -/
def handleRequestEnd (now : Nat) (s : BattleState) : BattleState × Bool :=
  if s.status = BattleStatus.active then
    (endBattleFromCompleted now { s with status := .completed }, true)
  else (s, false)

/-- The three independent end triggers of the coordinator. -/
inductive EndTrigger where
  | timeout
  | allSolved
  | requestEnd
deriving DecidableEq, Repr

def endStep (tr : EndTrigger) (now : Nat) (s : BattleState) : BattleState × Bool :=
  match tr with
  | .timeout => timerTimeoutTrigger now s
  | .allSolved => checkAndAutoEnd now s
  | .requestEnd => handleRequestEnd now s

/-- A sequence of end triggers hitting the same battle row; the `Nat`
counts how many of them broadcast `battle_ended`. -/
def endSeq : List (EndTrigger × Nat) → BattleState → BattleState × Nat
  | [], s => (s, 0)
  | (tr, t) :: rest, s =>
    let r := endStep tr t s
    let rec' := endSeq rest r.1
    (rec'.1, (if r.2 then 1 else 0) + rec'.2)

/-! ### Scoring (score_battle_submission, services.py) -/

/-- `STATUS_MAP.get(judge_status, BattleSubmission.Status.WRONG_ANSWER)`. -/
def statusMapLookup (judge_status : String) : SubVerdict :=
  if judge_status = "accepted" then .accepted
  else if judge_status = "wrong_answer" then .wrong_answer
  else if judge_status = "time_limit" then .time_limit
  else if judge_status = "runtime_error" then .runtime_error
  else if judge_status = "compile_error" then .compile_error
  else .wrong_answer

/-- `has_user_solved_problem` (selectors.py). -/
def hasUserSolvedProblem (s : BattleState) (userId problemId : Nat) : Bool :=
  s.submissions.any (fun sub =>
    sub.userId == userId && sub.problemId == problemId && sub.status == SubVerdict.accepted)

/-- `score_battle_submission` (services.py): insert the submission row
with its points, conditionally bump the participant row, then (for
accepted verdicts) run the all-solved auto-end check.  The language,
code and resource-metric columns of the submission row are not
modelled: no claim refers to them. -/
def scoreBattleSubmission (now : Nat) (s : BattleState) (userId problemId : Nat)
    (judge_status : String) : BattleState × BattleSub :=
  let sub_status := statusMapLookup judge_status
  let points : Nat :=
    if sub_status = SubVerdict.accepted then
      if hasUserSolvedProblem s userId problemId then 0 else PROBLEM_POINTS
    else 0
  let sub : BattleSub := ⟨userId, problemId, sub_status, points⟩
  let s1 := { s with submissions := s.submissions ++ [sub] }
  let s2 :=
    if 0 < points then
      { s1 with participants := s1.participants.map (fun q =>
          if q.userId == userId then
            { q with score := q.score + points,
                     problems_solved :=
                       q.problems_solved + (if sub_status = SubVerdict.accepted then 1 else 0) }
          else q) }
    else s1
  let s3 := if sub_status = SubVerdict.accepted then (checkAndAutoEnd now s2).1 else s2
  (s3, sub)

/-- Repeated submissions with verdict ACCEPTED by the same user for the
same problem; returns the created submission rows in call order. -/
def scoreAcceptedSeq (now userId problemId : Nat) :
    Nat → BattleState → BattleState × List BattleSub
  | 0, s => (s, [])
  | n + 1, s =>
    let r := scoreBattleSubmission now s userId problemId "accepted"
    let rest := scoreAcceptedSeq now userId problemId n r.1
    (rest.1, r.2 :: rest.2)

/-- An arbitrary sequence of scoring calls `(userId, problemId,
judge_status)` against one battle. -/
def scoreCallSeq (now : Nat) : List (Nat × Nat × String) → BattleState → BattleState
  | [], s => s
  | (u, p, st) :: rest, s => scoreCallSeq now rest (scoreBattleSubmission now s u p st).1

/-! ### Sample data for concrete instantiations -/

def sampleUsers : List UserRow :=
  [⟨1, 3, 1, 100⟩, ⟨2, 5, 2, 120⟩]

def sampleWaiting : BattleState :=
  ⟨.waiting, none, none, none, none, [11, 12, 13, 14, 15],
   [⟨1, 0, 0, false⟩, ⟨2, 0, 0, false⟩], [], sampleUsers⟩

def sampleActive : BattleState :=
  ⟨.active, none, some 100, some 1900, none, [11, 12, 13, 14, 15],
   [⟨1, 10, 1, true⟩, ⟨2, 20, 2, true⟩], [⟨1, 11, .accepted, 10⟩], sampleUsers⟩

/-- An ACTIVE battle with tied scores 10–10 but problems_solved 2–1. -/
def sampleTied : BattleState :=
  ⟨.active, none, some 0, some 1800, none, [11, 12, 13, 14, 15],
   [⟨1, 10, 2, true⟩, ⟨2, 10, 1, true⟩], [], sampleUsers⟩

/-- The participant-score / problems-solved coupling of claim C10. -/
def scoreInvariant (s : BattleState) : Prop :=
  ∀ q ∈ s.participants, q.score = 10 * q.problems_solved

/-- The execute result `run` sees for one test case. -/
def caseResult (timeoutS : Nat) (b : ExecBehavior) (language : String) (tc : TestCase) :
    ExecResult :=
  (execute timeoutS b language tc.input_data).1

/-- Whether `run`'s four failure checks all pass for one test case. -/
def casePasses (timeoutS : Nat) (b : ExecBehavior) (language : String) (tc : TestCase) : Bool :=
  (classifyCase (caseResult timeoutS b language tc) tc.expected_output).isNone

/-- A program that echoes its stdin in 100 ms and exits 0. -/
def echoBehavior : ExecBehavior :=
  .runsProcess (fun stdin => ⟨stdin, "", 0, 100⟩)

/-- A compile phase failing with an ordinary compiler diagnostic. -/
def badCompile : ExecBehavior :=
  .compileFailed "solution.cpp:1:1: error: expected expression" 1 (by decide)

/-- A correct program that takes 5.5 s of wall time. -/
def slowOk : ExecBehavior :=
  .runsProcess (fun _ => ⟨"ok", "", 0, 5500⟩)

/-- A program that would run for 90 s if not killed. -/
def sleepyProc : String → ProcRun :=
  fun _ => ⟨"", "", 0, 90000⟩

def judgeCases : List TestCase :=
  [⟨"1", "1"⟩, ⟨"2", "2"⟩, ⟨"3", "x"⟩, ⟨"4", "4"⟩, ⟨"5", "5"⟩]

def judgePre : List TestCase :=
  [⟨"1", "1"⟩, ⟨"2", "2"⟩]

def judgeFailTc : TestCase :=
  ⟨"3", "x"⟩

def judgePost : List TestCase :=
  [⟨"4", "4"⟩, ⟨"5", "5"⟩]

/-! ### Lemmas relating the code's normalization to the spec's -/

theorem dropTrail_append_singleton {α : Type} (p : α → Bool) (l : List α) (c : α)
    (hc : p c = true) : dropTrail p (l ++ [c]) = dropTrail p l := by
  simp [dropTrail, List.dropWhile, hc]

theorem pyStripChars_newline_cons (y : List Char) :
    pyStripChars ('\n' :: y) = pyStripChars y := by
  simp [pyStripChars, List.dropWhile, isPySpace]

theorem pyStripChars_append_newline (y : List Char) :
    pyStripChars (y ++ ['\n']) = pyStripChars y := by
  induction y with
  | nil => simp [pyStripChars, List.dropWhile, isPySpace, dropTrail]
  | cons a t ih =>
    by_cases ha : isPySpace a = true
    · simpa [pyStripChars, List.dropWhile, ha] using ih
    · have ha' : isPySpace a = false := by
        cases h : isPySpace a
        · rfl
        · exact absurd h ha
      simp only [pyStripChars, List.cons_append, List.dropWhile, ha']
      exact dropTrail_append_singleton isPySpace (a :: t) '\n' (by simp [isPySpace])

theorem joinLines_nil_cons (ls : List (List Char)) (h : ls ≠ []) :
    joinLines ([] :: ls) = '\n' :: joinLines ls := by
  match ls with
  | [] => exact absurd rfl h
  | l :: t => rfl

theorem stripJoin_nil_cons (ls : List (List Char)) :
    pyStripChars (joinLines ([] :: ls)) = pyStripChars (joinLines ls) := by
  match ls with
  | [] => rfl
  | l :: t =>
    rw [joinLines_nil_cons (l :: t) (by simp)]
    exact pyStripChars_newline_cons _

theorem joinLines_append_singleton (ls : List (List Char)) (x : List Char) (h : ls ≠ []) :
    joinLines (ls ++ [x]) = joinLines ls ++ '\n' :: x := by
  induction ls with
  | nil => exact absurd rfl h
  | cons l t ih =>
    match t with
    | [] => rfl
    | l2 :: t2 =>
      have h2 := ih (by simp)
      simp only [List.cons_append, joinLines, List.append_eq] at h2 ⊢
      rw [h2]
      simp

theorem stripJoin_append_nil (ls : List (List Char)) :
    pyStripChars (joinLines (ls ++ [[]])) = pyStripChars (joinLines ls) := by
  match ls with
  | [] => rfl
  | l :: t =>
    rw [joinLines_append_singleton (l :: t) [] (by simp)]
    have : joinLines (l :: t) ++ '\n' :: ([] : List Char) = joinLines (l :: t) ++ ['\n'] := rfl
    rw [this, pyStripChars_append_newline]

theorem stripJoin_dropWhile_blank (ls : List (List Char)) :
    pyStripChars (joinLines (ls.dropWhile isBlankLine)) = pyStripChars (joinLines ls) := by
  induction ls with
  | nil => rfl
  | cons l t ih =>
    by_cases hl : isBlankLine l = true
    · have hnil : l = [] := by
        cases l with
        | nil => rfl
        | cons a b => simp [isBlankLine] at hl
      subst hnil
      rw [List.dropWhile_cons_of_pos hl, ih, stripJoin_nil_cons]
    · have hl' : isBlankLine l = false := by
        cases h : isBlankLine l
        · rfl
        · exact absurd h hl
      rw [List.dropWhile_cons_of_neg (by simp [hl'])]

theorem stripJoin_dropTrail_blank (ls : List (List Char)) :
    pyStripChars (joinLines (dropTrail isBlankLine ls)) = pyStripChars (joinLines ls) := by
  induction ls using List.reverseRecOn with
  | nil => rfl
  | append_singleton ms m ih =>
    by_cases hm : isBlankLine m = true
    · have hnil : m = [] := by
        cases m with
        | nil => rfl
        | cons a b => simp [isBlankLine] at hm
      subst hnil
      rw [dropTrail_append_singleton isBlankLine ms [] (by simp [isBlankLine]), ih,
        stripJoin_append_nil]
    · have hm' : isBlankLine m = false := by
        cases h : isBlankLine m
        · rfl
        · exact absurd h hm
      simp [dropTrail, List.dropWhile, hm']

/-- The code's comparison key is the spec's comparison key followed by a
whole-string Python `strip`. -/
theorem normalizeChars_eq_strip_spec (l : List Char) :
    normalizeChars l = pyStripChars (specNormalizeChars l) := by
  rw [normalizeChars, specNormalizeChars, stripJoin_dropTrail_blank, stripJoin_dropWhile_blank]

theorem normalizeOutput_eq_strip_spec (s : String) :
    normalizeOutput s = pyStrip (specNormalize s) := by
  simp [normalizeOutput, pyStrip, specNormalize, normalizeChars_eq_strip_spec]

/-! ### Lemmas on the end paths -/

theorem endedState_status (t : Nat) (s : BattleState) :
    (endedState t s).status = BattleStatus.completed := rfl

theorem endBattleFromCompleted_completed (t : Nat) (s : BattleState) :
    endBattleFromCompleted t { s with status := .completed } = endedState t s := rfl

theorem endStep_fired (tr : EndTrigger) (t : Nat) (s : BattleState)
    (h : (endStep tr t s).2 = true) :
    s.status = BattleStatus.active ∧ (endStep tr t s).1 = endedState t s := by
  cases tr with
  | timeout =>
    simp only [endStep, timerTimeoutTrigger] at h ⊢
    split at h
    · simp at h
    · next hact =>
      have hact' : s.status = BattleStatus.active := by
        by_contra hc
        exact hact hc
      split at h
      · refine ⟨hact', ?_⟩
        simp_all [endBattle, endedState, hact']
      · simp at h
  | allSolved =>
    simp only [endStep, checkAndAutoEnd] at h ⊢
    split at h
    · simp at h
    · split at h
      · split at h
        · next hact =>
          refine ⟨hact, ?_⟩
          simp_all [endBattle, endedState, hact]
        · simp at h
      · simp at h
  | requestEnd =>
    simp only [endStep, handleRequestEnd] at h ⊢
    split at h
    · next hact =>
      exact ⟨hact, by simp [hact, endBattleFromCompleted_completed]⟩
    · simp at h

theorem endStep_not_fired (tr : EndTrigger) (t : Nat) (s : BattleState)
    (h : (endStep tr t s).2 = false) :
    (endStep tr t s).1 = s := by
  cases tr with
  | timeout =>
    by_cases h1 : s.status = BattleStatus.active
    · by_cases h2 : secondsRemaining t s = 0
      · by_cases h3 : s.status = BattleStatus.completed
        · exact absurd (h1.symm.trans h3) (by decide)
        · exfalso
          simp [endStep, timerTimeoutTrigger, endBattle, h1, h2, h3] at h
      · simp [endStep, timerTimeoutTrigger, h1, h2]
    · simp [endStep, timerTimeoutTrigger, h1]
  | allSolved =>
    by_cases h1 : s.problems.length = 0
    · simp [endStep, checkAndAutoEnd, h1]
    · by_cases h2 : s.problems.length ≤ solvedDistinctCount s
      · by_cases h3 : s.status = BattleStatus.active
        · by_cases h4 : s.status = BattleStatus.completed
          · exact absurd (h3.symm.trans h4) (by decide)
          · exfalso
            simp [endStep, checkAndAutoEnd, endBattle, h1, h2, h3, h4] at h
        · simp [endStep, checkAndAutoEnd, h1, h2, h3]
      · simp [endStep, checkAndAutoEnd, h1, h2]
  | requestEnd =>
    by_cases h1 : s.status = BattleStatus.active
    · exfalso
      simp [endStep, handleRequestEnd, h1] at h
    · simp [endStep, handleRequestEnd, h1]

theorem endStep_on_completed (tr : EndTrigger) (t : Nat) (s : BattleState)
    (h : s.status = BattleStatus.completed) :
    endStep tr t s = (s, false) := by
  cases tr with
  | timeout => simp [endStep, timerTimeoutTrigger, h]
  | allSolved => simp [endStep, checkAndAutoEnd, endBattle, h]
  | requestEnd => simp [endStep, handleRequestEnd, h]

theorem endSeq_on_completed (L : List (EndTrigger × Nat)) (s : BattleState)
    (h : s.status = BattleStatus.completed) :
    endSeq L s = (s, 0) := by
  induction L with
  | nil => rfl
  | cons hd rest ih =>
    obtain ⟨tr, t⟩ := hd
    simp [endSeq, endStep_on_completed tr t s h, ih]

theorem endSeq_count_le_one (L : List (EndTrigger × Nat)) (s : BattleState) :
    (endSeq L s).2 ≤ 1 := by
  induction L generalizing s with
  | nil => simp [endSeq]
  | cons hd rest ih =>
    obtain ⟨tr, t⟩ := hd
    simp only [endSeq]
    cases hr : (endStep tr t s).2 with
    | false => simpa using ih (endStep tr t s).1
    | true =>
      have h1 := endStep_fired tr t s hr
      have hcomp : (endStep tr t s).1.status = BattleStatus.completed := by
        rw [h1.2]; rfl
      simp [endSeq_on_completed rest _ hcomp]

/-- C1: each of the three end paths (countdown timeout, all-solved,
explicit request_end) performs the ACTIVE→COMPLETED transition only
when the stored status is still ACTIVE; the caller that performed it is
exactly the one that writes winner, ended_at and the user stat bumps
and broadcasts `battle_ended`; a losing or late caller changes nothing;
every end path on an already COMPLETED battle is a no-op; and across
any sequence of end triggers at most one `battle_ended` broadcast is
produced. -/
theorem c1_end_paths_at_most_once (tr : EndTrigger) (t : Nat) (s : BattleState) :
    ((endStep tr t s).1.status ≠ s.status →
       s.status = BattleStatus.active ∧ (endStep tr t s).1.status = BattleStatus.completed) ∧
    ((endStep tr t s).2 = true →
       s.status = BattleStatus.active ∧ (endStep tr t s).1 = endedState t s) ∧
    ((endStep tr t s).2 = false → (endStep tr t s).1 = s) ∧
    (s.status = BattleStatus.completed → endStep tr t s = (s, false)) ∧
    (∀ L, s.status = BattleStatus.completed → endSeq L s = (s, 0)) ∧
    (∀ L, (endSeq L s).2 ≤ 1) := by
  refine ⟨?_, endStep_fired tr t s, endStep_not_fired tr t s,
    endStep_on_completed tr t s, fun L h => endSeq_on_completed L s h,
    fun L => endSeq_count_le_one L s⟩
  intro hne
  cases hr : (endStep tr t s).2 with
  | false => exact absurd (congrArg BattleState.status (endStep_not_fired tr t s hr)) hne
  | true =>
    have h1 := endStep_fired tr t s hr
    exact ⟨h1.1, by rw [h1.2]; rfl⟩

/-- C1 witness: the theorem instantiated for an explicit end request on
a concrete ACTIVE battle. -/
theorem c1_end_paths_at_most_once_witness :
    (((endStep .requestEnd 7 sampleActive).1.status ≠ sampleActive.status →
       sampleActive.status = BattleStatus.active ∧
       (endStep .requestEnd 7 sampleActive).1.status = BattleStatus.completed) ∧
    ((endStep .requestEnd 7 sampleActive).2 = true →
       sampleActive.status = BattleStatus.active ∧
       (endStep .requestEnd 7 sampleActive).1 = endedState 7 sampleActive) ∧
    ((endStep .requestEnd 7 sampleActive).2 = false →
       (endStep .requestEnd 7 sampleActive).1 = sampleActive) ∧
    (sampleActive.status = BattleStatus.completed →
       endStep .requestEnd 7 sampleActive = (sampleActive, false)) ∧
    (∀ L, sampleActive.status = BattleStatus.completed →
       endSeq L sampleActive = (sampleActive, 0)) ∧
    (∀ L, (endSeq L sampleActive).2 ≤ 1)) ∧
    (endStep .requestEnd 7 sampleActive).2 = true :=
  ⟨c1_end_paths_at_most_once .requestEnd 7 sampleActive, by decide⟩

/-! ### Lemmas on activation -/

theorem tryActivate_not_waiting (now : Nat) (s : BattleState)
    (h : s.status ≠ BattleStatus.waiting) :
    tryActivateBattle now s = (false, s) := by
  simp [tryActivateBattle, h]

theorem activateCalls_not_waiting (ts : List Nat) (s : BattleState)
    (h : s.status ≠ BattleStatus.waiting) :
    activateCalls ts s = (ts.map (fun _ => false), s) := by
  induction ts with
  | nil => rfl
  | cons t rest ih =>
    simp [activateCalls, tryActivate_not_waiting t s h, ih]

/-- C2: on a WAITING battle the first `_try_activate_battle` call (and
only it) reports `activated=True` and performs WAITING→ACTIVE with
`started_at = now` and `ends_at = now + 30 minutes`; every later call
reports `False` and leaves status, started_at and ends_at untouched;
only the activating caller starts the countdown task and broadcasts
the room snapshot. -/
theorem c2_activation_exactly_once (now : Nat) (ts : List Nat) (s : BattleState)
    (h : s.status = BattleStatus.waiting) :
    (tryActivateBattle now s).1 = true ∧
    (tryActivateBattle now s).2.status = BattleStatus.active ∧
    (tryActivateBattle now s).2.startedAt = some now ∧
    (tryActivateBattle now s).2.endsAt = some (now + DURATION_MINUTES * 60) ∧
    DURATION_MINUTES = 30 ∧
    (activateCalls (now :: ts) s).1 = true :: ts.map (fun _ => false) ∧
    (activateCalls (now :: ts) s).2 = (tryActivateBattle now s).2 ∧
    (∀ u : BattleState, u.status ≠ BattleStatus.waiting →
       tryActivateBattle now u = (false, u) ∧
       connectActivationAttempt now u = (u, ⟨false, false, false⟩)) ∧
    (connectActivationAttempt now s).2 = ⟨true, true, true⟩ := by
  have hact : tryActivateBattle now s =
      (true, { s with status := .active, startedAt := some now,
                      endsAt := some (now + DURATION_MINUTES * 60) }) := by
    simp [tryActivateBattle, h]
  have hrest := activateCalls_not_waiting ts
    { s with status := BattleStatus.active, startedAt := some now,
             endsAt := some (now + DURATION_MINUTES * 60) } (by simp)
  refine ⟨by rw [hact], by rw [hact], by rw [hact], by rw [hact], rfl, ?_, ?_, ?_, ?_⟩
  · simp [activateCalls, hact, hrest]
  · simp [activateCalls, hact, hrest]
  · intro u hu
    exact ⟨tryActivate_not_waiting now u hu,
      by simp [connectActivationAttempt, tryActivate_not_waiting now u hu]⟩
  · simp [connectActivationAttempt, hact]

/-- C2 witness: two racing connect events on a concrete WAITING battle. -/
theorem c2_activation_exactly_once_witness :
    sampleWaiting.status = BattleStatus.waiting ∧
    ((tryActivateBattle 3 sampleWaiting).1 = true ∧
     (tryActivateBattle 3 sampleWaiting).2.status = BattleStatus.active ∧
     (tryActivateBattle 3 sampleWaiting).2.startedAt = some 3 ∧
     (tryActivateBattle 3 sampleWaiting).2.endsAt = some (3 + DURATION_MINUTES * 60) ∧
     DURATION_MINUTES = 30 ∧
     (activateCalls (3 :: [5, 9]) sampleWaiting).1 = true :: [5, 9].map (fun _ => false) ∧
     (activateCalls (3 :: [5, 9]) sampleWaiting).2 = (tryActivateBattle 3 sampleWaiting).2 ∧
     (∀ u : BattleState, u.status ≠ BattleStatus.waiting →
        tryActivateBattle 3 u = (false, u) ∧
        connectActivationAttempt 3 u = (u, ⟨false, false, false⟩)) ∧
     (connectActivationAttempt 3 sampleWaiting).2 = ⟨true, true, true⟩) :=
  ⟨rfl, c2_activation_exactly_once 3 [5, 9] sampleWaiting rfl⟩

/-! ### C4: winner computation -/

/-- C4 counterexample: with scores (10, 10) and problems_solved (2, 1)
the code declares a draw (`winner = None`), not a win for the
participant with more problems solved, both at the winner rule itself
and through `end_battle` on a concrete battle. -/
theorem c4_tie_break_counterexample :
    computeWinner [⟨1, 10, 2, true⟩, ⟨2, 10, 1, true⟩] = none ∧
    computeWinner [⟨1, 10, 2, true⟩, ⟨2, 10, 1, true⟩] ≠ some 1 ∧
    (endBattle 5 sampleTied).1.winner = none ∧
    (endBattle 5 sampleTied).2 = true := by
  decide

/-- C4 amended: scores (10, 10) with equal problems_solved → draw;
scores (20, 10) → the higher scorer wins (whatever the row order);
scores (10, 10) with problems_solved (2, 1) → draw as well, because
problems_solved only orders the ranking and never decides the winner;
and the end paths install exactly this computed winner. -/
theorem c4_winner_rule_amended :
    computeWinner [⟨1, 10, 1, true⟩, ⟨2, 10, 1, true⟩] = none ∧
    computeWinner [⟨1, 20, 3, true⟩, ⟨2, 10, 1, true⟩] = some 1 ∧
    computeWinner [⟨2, 10, 1, true⟩, ⟨1, 20, 3, true⟩] = some 1 ∧
    computeWinner [⟨1, 10, 2, true⟩, ⟨2, 10, 1, true⟩] = none ∧
    (∀ (now : Nat) (s : BattleState), s.status = BattleStatus.active →
       (endBattle now s).1.winner = computeWinner s.participants ∧
       (endBattleFromCompleted now s).winner = computeWinner s.participants) := by
  refine ⟨by decide, by decide, by decide, by decide, ?_⟩
  intro now s h
  constructor
  · have hne : s.status ≠ BattleStatus.completed := by rw [h]; decide
    simp [endBattle, endedState, hne]
  · rfl

/-- C4 witness: the end-path conjunct applied to a concrete ACTIVE
battle. -/
theorem c4_winner_rule_amended_witness :
    sampleTied.status = BattleStatus.active ∧
    (endBattle 5 sampleTied).1.winner = computeWinner sampleTied.participants :=
  ⟨rfl, (c4_winner_rule_amended.2.2.2.2 5 sampleTied rfl).1⟩

/-! ### Lemmas on scoring -/

theorem endBattle_participants (now : Nat) (s : BattleState) :
    (endBattle now s).1.participants = s.participants := by
  by_cases h : s.status = BattleStatus.completed <;> simp [endBattle, endedState, h]

theorem endBattle_submissions (now : Nat) (s : BattleState) :
    (endBattle now s).1.submissions = s.submissions := by
  by_cases h : s.status = BattleStatus.completed <;> simp [endBattle, endedState, h]

theorem checkAndAutoEnd_participants (now : Nat) (s : BattleState) :
    (checkAndAutoEnd now s).1.participants = s.participants := by
  by_cases h1 : s.problems.length = 0
  · simp [checkAndAutoEnd, h1]
  · by_cases h2 : s.problems.length ≤ solvedDistinctCount s
    · by_cases h3 : s.status = BattleStatus.active
      · simp [checkAndAutoEnd, h1, h2, h3, endBattle_participants]
      · simp [checkAndAutoEnd, h1, h2, h3]
    · simp [checkAndAutoEnd, h1, h2]

theorem checkAndAutoEnd_submissions (now : Nat) (s : BattleState) :
    (checkAndAutoEnd now s).1.submissions = s.submissions := by
  by_cases h1 : s.problems.length = 0
  · simp [checkAndAutoEnd, h1]
  · by_cases h2 : s.problems.length ≤ solvedDistinctCount s
    · by_cases h3 : s.status = BattleStatus.active
      · simp [checkAndAutoEnd, h1, h2, h3, endBattle_submissions]
      · simp [checkAndAutoEnd, h1, h2, h3]
    · simp [checkAndAutoEnd, h1, h2]

theorem statusMapLookup_accepted : statusMapLookup "accepted" = SubVerdict.accepted := by
  decide

theorem scoreAccepted_dup (now : Nat) (s : BattleState) (u p : Nat)
    (h : hasUserSolvedProblem s u p = true) :
    (scoreBattleSubmission now s u p "accepted").2 = ⟨u, p, .accepted, 0⟩ ∧
    (scoreBattleSubmission now s u p "accepted").1.participants = s.participants ∧
    (scoreBattleSubmission now s u p "accepted").1.submissions =
      s.submissions ++ [⟨u, p, .accepted, 0⟩] ∧
    hasUserSolvedProblem (scoreBattleSubmission now s u p "accepted").1 u p = true := by
  simp only [scoreBattleSubmission, statusMapLookup_accepted, h]
  refine ⟨by simp, ?_, ?_, ?_⟩
  · simp [checkAndAutoEnd_participants]
  · simp [checkAndAutoEnd_submissions]
  · simp [hasUserSolvedProblem, checkAndAutoEnd_submissions, List.any_append]

theorem scoreAccepted_first (now : Nat) (s : BattleState) (u p : Nat)
    (h : hasUserSolvedProblem s u p = false) :
    (scoreBattleSubmission now s u p "accepted").2 = ⟨u, p, .accepted, PROBLEM_POINTS⟩ ∧
    hasUserSolvedProblem (scoreBattleSubmission now s u p "accepted").1 u p = true := by
  simp only [scoreBattleSubmission, statusMapLookup_accepted, h]
  refine ⟨by simp, ?_⟩
  simp [hasUserSolvedProblem, checkAndAutoEnd_submissions, List.any_append, PROBLEM_POINTS]

theorem scoreAcceptedSeq_dup (now u p : Nat) (n : Nat) (s : BattleState)
    (h : hasUserSolvedProblem s u p = true) :
    ((scoreAcceptedSeq now u p n s).2.map (fun sub => sub.points_earned)) =
      List.replicate n 0 ∧
    (scoreAcceptedSeq now u p n s).1.participants = s.participants := by
  induction n generalizing s with
  | zero => exact ⟨rfl, rfl⟩
  | succ m ih =>
    have hd := scoreAccepted_dup now s u p h
    have hrest := ih (scoreBattleSubmission now s u p "accepted").1 hd.2.2.2
    refine ⟨?_, ?_⟩
    · simp only [scoreAcceptedSeq, List.map, hrest.1, hd.1, List.replicate_succ]
    · simp only [scoreAcceptedSeq, hrest.2, hd.2.1]

theorem filter_pos_replicate_zero (n : Nat) :
    ((List.replicate n (0 : Nat)).filter (fun x => decide (0 < x))) = [] := by
  induction n with
  | zero => rfl
  | succ m ih => simp [List.replicate_succ, ih]

/-- C3: across any number of ACCEPTED submissions by user `u` for
problem `p` in one battle, only the first one records positive
`points_earned` (the flat 10 points); every later one records 0 and
leaves the participant's score and problems_solved untouched; so at
most one of the created submission rows carries positive points. -/
theorem c3_first_acceptance_only (now u p n : Nat) (s : BattleState) :
    PROBLEM_POINTS = 10 ∧
    (hasUserSolvedProblem s u p = false →
       ((scoreAcceptedSeq now u p (n + 1) s).2.map (fun sub => sub.points_earned)) =
         PROBLEM_POINTS :: List.replicate n 0) ∧
    (hasUserSolvedProblem s u p = true →
       ((scoreAcceptedSeq now u p n s).2.map (fun sub => sub.points_earned)) =
         List.replicate n 0 ∧
       (scoreAcceptedSeq now u p n s).1.participants = s.participants) ∧
    (((scoreAcceptedSeq now u p n s).2.map (fun sub => sub.points_earned)).filter
        (fun x => decide (0 < x))).length ≤ 1 := by
  refine ⟨rfl, ?_, fun h => scoreAcceptedSeq_dup now u p n s h, ?_⟩
  · intro h
    have hf := scoreAccepted_first now s u p h
    have hrest := scoreAcceptedSeq_dup now u p n _ hf.2
    simp only [scoreAcceptedSeq, List.map, hrest.1, hf.1]
  · cases h : hasUserSolvedProblem s u p with
    | true =>
      rw [(scoreAcceptedSeq_dup now u p n s h).1, filter_pos_replicate_zero]
      simp
    | false =>
      cases n with
      | zero => simp [scoreAcceptedSeq]
      | succ m =>
        have hf := scoreAccepted_first now s u p h
        have hrest := scoreAcceptedSeq_dup now u p m _ hf.2
        simp only [scoreAcceptedSeq, List.map, hrest.1, hf.1]
        simp [filter_pos_replicate_zero, PROBLEM_POINTS]

/-- C3 witness: three repeated accepted submissions on a concrete
battle with no prior submissions. -/
theorem c3_first_acceptance_only_witness :
    hasUserSolvedProblem sampleWaiting 1 11 = false ∧
    (PROBLEM_POINTS = 10 ∧
     (hasUserSolvedProblem sampleWaiting 1 11 = false →
        ((scoreAcceptedSeq 50 1 11 (2 + 1) sampleWaiting).2.map
            (fun sub => sub.points_earned)) = PROBLEM_POINTS :: List.replicate 2 0) ∧
     (hasUserSolvedProblem sampleWaiting 1 11 = true →
        ((scoreAcceptedSeq 50 1 11 2 sampleWaiting).2.map
            (fun sub => sub.points_earned)) = List.replicate 2 0 ∧
        (scoreAcceptedSeq 50 1 11 2 sampleWaiting).1.participants =
          sampleWaiting.participants) ∧
     (((scoreAcceptedSeq 50 1 11 2 sampleWaiting).2.map
          (fun sub => sub.points_earned)).filter (fun x => decide (0 < x))).length ≤ 1) :=
  ⟨by decide, c3_first_acceptance_only 50 1 11 2 sampleWaiting⟩

/-! ### C10: score = 10 × problems_solved -/

theorem scoreStep_participants_or (now u p : Nat) (st : String) (s : BattleState) :
    (scoreBattleSubmission now s u p st).1.participants = s.participants ∨
    (scoreBattleSubmission now s u p st).1.participants = s.participants.map (fun q =>
      if q.userId == u then
        { q with score := q.score + PROBLEM_POINTS,
                 problems_solved := q.problems_solved + 1 }
      else q) := by
  by_cases hv : statusMapLookup st = SubVerdict.accepted
  · by_cases hs : hasUserSolvedProblem s u p
    · left
      simp [scoreBattleSubmission, hv, hs, checkAndAutoEnd_participants]
    · right
      simp only [scoreBattleSubmission, hv, hs, Bool.false_eq_true, if_false, if_true]
      simp [checkAndAutoEnd_participants, PROBLEM_POINTS]
  · left
    simp [scoreBattleSubmission, hv, checkAndAutoEnd_participants]

theorem scoreStep_invariant (now u p : Nat) (st : String) (s : BattleState)
    (h : scoreInvariant s) :
    scoreInvariant (scoreBattleSubmission now s u p st).1 := by
  cases scoreStep_participants_or now u p st s with
  | inl heq => intro q hq; rw [heq] at hq; exact h q hq
  | inr heq =>
    intro q hq
    rw [heq] at hq
    obtain ⟨q0, hq0, rfl⟩ := List.mem_map.1 hq
    by_cases hu : q0.userId == u
    · have := h q0 hq0
      simp [hu, PROBLEM_POINTS]
      omega
    · simpa [hu] using h q0 hq0

theorem scoreCallSeq_invariant (now : Nat) (calls : List (Nat × Nat × String))
    (s : BattleState) (h : scoreInvariant s) :
    scoreInvariant (scoreCallSeq now calls s) := by
  induction calls generalizing s with
  | nil => exact h
  | cons c rest ih =>
    obtain ⟨u, p, st⟩ := c
    exact ih _ (scoreStep_invariant now u p st s h)

/-- C10: every `score_battle_submission` call either leaves all
participant rows unchanged or bumps exactly one row by +10 score and
+1 problems_solved in the same update, so `score = 10 ×
problems_solved` holds in every state reachable from freshly created
participant rows (score 0, problems_solved 0) by scoring calls. -/
theorem c10_score_solved_coupling :
    (∀ (now u p : Nat) (st : String) (s : BattleState),
       (scoreBattleSubmission now s u p st).1.participants = s.participants ∨
       (scoreBattleSubmission now s u p st).1.participants = s.participants.map (fun q =>
         if q.userId == u then
           { q with score := q.score + PROBLEM_POINTS,
                    problems_solved := q.problems_solved + 1 }
         else q)) ∧
    (∀ s : BattleState,
       (∀ q ∈ s.participants, q.score = 0 ∧ q.problems_solved = 0) → scoreInvariant s) ∧
    (∀ (now : Nat) (calls : List (Nat × Nat × String)) (s : BattleState),
       scoreInvariant s → scoreInvariant (scoreCallSeq now calls s)) := by
  refine ⟨scoreStep_participants_or, ?_, scoreCallSeq_invariant⟩
  intro s h q hq
  rw [(h q hq).1, (h q hq).2]

/-- C10 witness: a concrete mixed sequence of scoring calls starting
from fresh participant rows. -/
theorem c10_score_solved_coupling_witness :
    scoreInvariant sampleWaiting ∧
    scoreInvariant (scoreCallSeq 50
      [(1, 11, "accepted"), (1, 11, "accepted"), (1, 12, "wrong_answer"), (2, 11, "accepted")]
      sampleWaiting) :=
  ⟨by unfold scoreInvariant; decide, c10_score_solved_coupling.2.2 50
    [(1, 11, "accepted"), (1, 11, "accepted"), (1, 12, "wrong_answer"), (2, 11, "accepted")]
    sampleWaiting (by unfold scoreInvariant; decide)⟩

/-! ### Lemmas on the judge loop -/

theorem runJudgeGo_all_pass (T : Nat) (b : ExecBehavior) (lang : String) (tcs : List TestCase) :
    ∀ (idx total : Nat), (∀ tc ∈ tcs, casePasses T b lang tc = true) →
      runJudgeGo T b lang tcs idx total =
        ⟨"accepted",
         total + (tcs.map (fun tc => (caseResult T b lang tc).execution_time_ms)).sum,
         0, none⟩ := by
  induction tcs with
  | nil => intro idx total _; simp [runJudgeGo]
  | cons tc rest ih =>
    intro idx total h
    have hcls : classifyCase (caseResult T b lang tc) tc.expected_output = none := by
      have hp := h tc (by simp)
      simpa [casePasses, Option.isNone_iff_eq_none] using hp
    have hcls' : classifyCase (execute T b lang tc.input_data).1 tc.expected_output = none := hcls
    simp only [runJudgeGo, hcls']
    rw [ih (idx + 1) (total + (execute T b lang tc.input_data).1.execution_time_ms)
      (fun x hx => h x (by simp [hx]))]
    simp [caseResult, Nat.add_assoc]

theorem runJudgeGo_first_fail (T : Nat) (b : ExecBehavior) (lang : String)
    (pre : List TestCase) :
    ∀ (tc : TestCase) (rest : List TestCase) (idx total : Nat),
      (∀ x ∈ pre, casePasses T b lang x = true) →
      casePasses T b lang tc = false →
      runJudgeGo T b lang (pre ++ tc :: rest) idx total =
        ⟨(classifyCase (caseResult T b lang tc) tc.expected_output).getD "accepted",
         total + ((pre ++ [tc]).map (fun x => (caseResult T b lang x).execution_time_ms)).sum,
         0, some (idx + pre.length)⟩ := by
  induction pre with
  | nil =>
    intro tc rest idx total _ hf
    obtain ⟨st, hst⟩ : ∃ st, classifyCase (caseResult T b lang tc) tc.expected_output = some st := by
      cases hc : classifyCase (caseResult T b lang tc) tc.expected_output with
      | none => rw [casePasses, hc] at hf; simp at hf
      | some st => exact ⟨st, rfl⟩
    have hst' : classifyCase (execute T b lang tc.input_data).1 tc.expected_output = some st := hst
    simp [runJudgeGo, hst', hst, caseResult]
  | cons x pre' ih =>
    intro tc rest idx total hpre hf
    have hcls : classifyCase (execute T b lang x.input_data).1 x.expected_output = none := by
      have hp := hpre x (by simp)
      simpa [casePasses, caseResult, Option.isNone_iff_eq_none] using hp
    simp only [List.cons_append, List.append_eq, runJudgeGo, hcls]
    rw [ih tc rest (idx + 1) (total + (execute T b lang x.input_data).1.execution_time_ms)
      (fun y hy => hpre y (by simp [hy])) hf]
    simp [caseResult, Nat.add_assoc]
    omega

/-- C6: `run` executes the test cases strictly in their given order and
stops at the first failure: all passing yields status accepted with
`failed_case = None` and the summed wall time of every case; a first
failure at 1-based position k yields `failed_case = k`, a result
identical to running only cases 1..k (later cases are never executed),
and `execution_time_ms` equal to the summed wall times of exactly
cases 1..k. -/
theorem c6_in_order_early_exit (b : ExecBehavior) (lang : String) (tlms : Nat)
    (tcs : List TestCase) :
    ((∀ tc ∈ tcs, casePasses (runTimeoutSeconds tlms) b lang tc = true) →
       runJudge b lang tcs tlms =
         ⟨"accepted",
          (tcs.map (fun tc =>
            (caseResult (runTimeoutSeconds tlms) b lang tc).execution_time_ms)).sum,
          0, none⟩) ∧
    (∀ (pre : List TestCase) (tc : TestCase) (post : List TestCase),
       tcs = pre ++ tc :: post →
       (∀ x ∈ pre, casePasses (runTimeoutSeconds tlms) b lang x = true) →
       casePasses (runTimeoutSeconds tlms) b lang tc = false →
       runJudge b lang tcs tlms = runJudge b lang (pre ++ [tc]) tlms ∧
       (runJudge b lang tcs tlms).failed_case = some (pre.length + 1) ∧
       (runJudge b lang tcs tlms).execution_time_ms =
         ((pre ++ [tc]).map (fun x =>
           (caseResult (runTimeoutSeconds tlms) b lang x).execution_time_ms)).sum) := by
  constructor
  · intro h
    rw [runJudge, runJudgeGo_all_pass (runTimeoutSeconds tlms) b lang tcs 1 0 h]
    simp
  · intro pre tc post heq hpre hf
    subst heq
    have h1 := runJudgeGo_first_fail (runTimeoutSeconds tlms) b lang pre tc post 1 0 hpre hf
    have h2 := runJudgeGo_first_fail (runTimeoutSeconds tlms) b lang pre tc [] 1 0 hpre hf
    have h2' : runJudge b lang (pre ++ [tc]) tlms =
        ⟨(classifyCase (caseResult (runTimeoutSeconds tlms) b lang tc)
            tc.expected_output).getD "accepted",
         0 + ((pre ++ [tc]).map (fun x =>
           (caseResult (runTimeoutSeconds tlms) b lang x).execution_time_ms)).sum,
         0, some (1 + pre.length)⟩ := h2
    refine ⟨?_, ?_, ?_⟩
    · rw [runJudge, h1, h2']
    · rw [runJudge, h1]
      simp [Nat.add_comm]
    · rw [runJudge, h1]
      simp

/-- C6 witness: five echo test cases of 100 ms each whose third case
expects different output: verdict wrong_answer, `failed_case = 3`,
and 300 ms of accumulated time for cases 1–3 only. -/
theorem c6_in_order_early_exit_witness :
    judgeCases = judgePre ++ judgeFailTc :: judgePost ∧
    (runJudge echoBehavior "python" judgeCases 2000 =
       runJudge echoBehavior "python" (judgePre ++ [judgeFailTc]) 2000 ∧
     (runJudge echoBehavior "python" judgeCases 2000).failed_case =
       some (judgePre.length + 1) ∧
     (runJudge echoBehavior "python" judgeCases 2000).execution_time_ms =
       ((judgePre ++ [judgeFailTc]).map (fun x =>
         (caseResult (runTimeoutSeconds 2000) echoBehavior "python" x).execution_time_ms)).sum) ∧
    (runJudge echoBehavior "python" judgeCases 2000).failed_case = some 3 :=
  ⟨rfl,
   (c6_in_order_early_exit echoBehavior "python" 2000 judgeCases).2
     judgePre judgeFailTc judgePost rfl (by decide) (by decide),
   by decide⟩

/-! ### C5: verdict classification -/

/-- C5 counterexample: a compile phase that exits non-zero with an
ordinary compiler diagnostic (no "not found"/"Unsupported" marker in
stderr) is classified runtime_error, not compile_error. -/
theorem c5_compile_error_counterexample :
    runJudge badCompile "cpp" [⟨"", "x"⟩] 2000 = ⟨"runtime_error", 0, 0, some 1⟩ ∧
    (runJudge badCompile "cpp" [⟨"", "x"⟩] 2000).status ≠ "compile_error" := by
  decide

/-- C5 amended: the first failing case is classified compile_error
exactly when the exit code is non-zero and stderr carries a "not
found" or "Unsupported" marker (missing toolchain / unsupported
language); a non-zero exit during the compile phase without those
markers falls through to runtime_error; time_limit when stderr reports
"Time Limit Exceeded" or the exit code is -1; runtime_error for any
other non-zero exit; wrong_answer when the exit is zero but the
normalized outputs differ. -/
theorem c5_classification_amended (b : ExecBehavior) (lang : String) (tc : TestCase)
    (tlms : Nat) :
    ((runJudge b lang [tc] tlms).status =
       (classifyCase (caseResult (runTimeoutSeconds tlms) b lang tc)
         tc.expected_output).getD "accepted") ∧
    ((((caseResult (runTimeoutSeconds tlms) b lang tc).exit_code != 0)
        && (strContains (caseResult (runTimeoutSeconds tlms) b lang tc).stderr "not found"
            || strContains (caseResult (runTimeoutSeconds tlms) b lang tc).stderr "Unsupported"))
        = true →
       classifyCase (caseResult (runTimeoutSeconds tlms) b lang tc) tc.expected_output =
         some "compile_error") ∧
    ((((caseResult (runTimeoutSeconds tlms) b lang tc).exit_code != 0)
        && (strContains (caseResult (runTimeoutSeconds tlms) b lang tc).stderr "not found"
            || strContains (caseResult (runTimeoutSeconds tlms) b lang tc).stderr "Unsupported"))
        = false →
       (strContains (caseResult (runTimeoutSeconds tlms) b lang tc).stderr "Time Limit Exceeded"
          || ((caseResult (runTimeoutSeconds tlms) b lang tc).exit_code == -1)) = true →
       classifyCase (caseResult (runTimeoutSeconds tlms) b lang tc) tc.expected_output =
         some "time_limit") ∧
    ((((caseResult (runTimeoutSeconds tlms) b lang tc).exit_code != 0)
        && (strContains (caseResult (runTimeoutSeconds tlms) b lang tc).stderr "not found"
            || strContains (caseResult (runTimeoutSeconds tlms) b lang tc).stderr "Unsupported"))
        = false →
       (strContains (caseResult (runTimeoutSeconds tlms) b lang tc).stderr "Time Limit Exceeded"
          || ((caseResult (runTimeoutSeconds tlms) b lang tc).exit_code == -1)) = false →
       (caseResult (runTimeoutSeconds tlms) b lang tc).exit_code ≠ 0 →
       classifyCase (caseResult (runTimeoutSeconds tlms) b lang tc) tc.expected_output =
         some "runtime_error") ∧
    ((((caseResult (runTimeoutSeconds tlms) b lang tc).exit_code != 0)
        && (strContains (caseResult (runTimeoutSeconds tlms) b lang tc).stderr "not found"
            || strContains (caseResult (runTimeoutSeconds tlms) b lang tc).stderr "Unsupported"))
        = false →
       (strContains (caseResult (runTimeoutSeconds tlms) b lang tc).stderr "Time Limit Exceeded"
          || ((caseResult (runTimeoutSeconds tlms) b lang tc).exit_code == -1)) = false →
       (caseResult (runTimeoutSeconds tlms) b lang tc).exit_code = 0 →
       normalizeOutput (caseResult (runTimeoutSeconds tlms) b lang tc).stdout ≠
         normalizeOutput tc.expected_output →
       classifyCase (caseResult (runTimeoutSeconds tlms) b lang tc) tc.expected_output =
         some "wrong_answer") ∧
    ((((caseResult (runTimeoutSeconds tlms) b lang tc).exit_code != 0)
        && (strContains (caseResult (runTimeoutSeconds tlms) b lang tc).stderr "not found"
            || strContains (caseResult (runTimeoutSeconds tlms) b lang tc).stderr "Unsupported"))
        = false →
       (strContains (caseResult (runTimeoutSeconds tlms) b lang tc).stderr "Time Limit Exceeded"
          || ((caseResult (runTimeoutSeconds tlms) b lang tc).exit_code == -1)) = false →
       (caseResult (runTimeoutSeconds tlms) b lang tc).exit_code = 0 →
       normalizeOutput (caseResult (runTimeoutSeconds tlms) b lang tc).stdout =
         normalizeOutput tc.expected_output →
       classifyCase (caseResult (runTimeoutSeconds tlms) b lang tc) tc.expected_output =
         none) := by
  refine ⟨?_, ?_, ?_, ?_, ?_, ?_⟩
  · have hres : (execute (runTimeoutSeconds tlms) b lang tc.input_data).1 =
        caseResult (runTimeoutSeconds tlms) b lang tc := rfl
    cases hc : classifyCase (caseResult (runTimeoutSeconds tlms) b lang tc)
        tc.expected_output with
    | none => simp [runJudge, runJudgeGo, hres, hc]
    | some st => simp [runJudge, runJudgeGo, hres, hc]
  · intro h1
    simp [classifyCase, h1]
  · intro h1 h2
    simp [classifyCase, h1, h2]
  · intro h1 h2 h3
    simp [classifyCase, h1, h2, bne_iff_ne, h3]
  · intro h1 h2 h3 h4
    cases hA : strContains (caseResult (runTimeoutSeconds tlms) b lang tc).stderr
        "Time Limit Exceeded" with
    | true => rw [hA] at h2; simp at h2
    | false =>
      rw [hA] at h2
      simp only [Bool.false_or] at h2
      simp [classifyCase, h1, hA, h2, h3, bne_iff_ne, h4]
  · intro h1 h2 h3 h4
    cases hA : strContains (caseResult (runTimeoutSeconds tlms) b lang tc).stderr
        "Time Limit Exceeded" with
    | true => rw [hA] at h2; simp at h2
    | false =>
      rw [hA] at h2
      simp only [Bool.false_or] at h2
      simp [classifyCase, h1, hA, h2, h3, h4, bne_iff_ne]

/-- C5 witness: a missing g++ toolchain is classified compile_error. -/
theorem c5_classification_amended_witness :
    (((caseResult (runTimeoutSeconds 2000) (.compilerNotFound "g++") "cpp" ⟨"", ""⟩).exit_code != 0)
       && (strContains (caseResult (runTimeoutSeconds 2000) (.compilerNotFound "g++") "cpp"
             ⟨"", ""⟩).stderr "not found"
           || strContains (caseResult (runTimeoutSeconds 2000) (.compilerNotFound "g++") "cpp"
             ⟨"", ""⟩).stderr "Unsupported")) = true ∧
    classifyCase (caseResult (runTimeoutSeconds 2000) (.compilerNotFound "g++") "cpp" ⟨"", ""⟩)
      (TestCase.mk "" "").expected_output = some "compile_error" ∧
    (runJudge (.compilerNotFound "g++") "cpp" [⟨"", ""⟩] 2000).status = "compile_error" := by
  have t := c5_classification_amended (.compilerNotFound "g++") "cpp" ⟨"", ""⟩ 2000
  exact ⟨by decide, t.2.1 (by decide), by rw [t.1, t.2.1 (by decide)]; rfl⟩

/-! ### C7: timeout enforcement -/

/-- C7 counterexample: with `time_limit_ms = 5000` the enforced kill
happens only after `max(1, 5000 // 1000 + 2) = 7` seconds, so a correct
program running 5500 ms — longer than the problem's time limit — is
not killed and is judged accepted, not time_limit. -/
theorem c7_timeout_counterexample :
    5000 < 5500 ∧
    runJudge slowOk "python" [⟨"", "ok"⟩] 5000 = ⟨"accepted", 5500, 0, none⟩ ∧
    (runJudge slowOk "python" [⟨"", "ok"⟩] 5000).status ≠ "time_limit" := by
  decide

/-- C7 amended: a test-case execution whose program would run longer
than the enforced `max(1, time_limit_ms // 1000 + 2)` seconds is
killed: execute reports stderr "Time Limit Exceeded" with the
distinguished exit code -1 (negative, unlike any normal exit), the
scratch directory is removed, and `run` returns verdict time_limit for
that case. -/
theorem c7_timeout_amended (tlms : Nat) (f : String → ProcRun) (lang : String) (tc : TestCase)
    (h : 1000 * runTimeoutSeconds tlms < (f tc.input_data).durationMs) :
    runTimeoutSeconds tlms = max 1 (tlms / 1000 + 2) ∧
    (execute (runTimeoutSeconds tlms) (.runsProcess f) lang tc.input_data).1 =
      ⟨"", "Time Limit Exceeded", -1, 1000 * runTimeoutSeconds tlms, 0⟩ ∧
    (execute (runTimeoutSeconds tlms) (.runsProcess f) lang tc.input_data).2 = ⟨true, true⟩ ∧
    (execute (runTimeoutSeconds tlms) (.runsProcess f) lang tc.input_data).1.exit_code < 0 ∧
    runJudge (.runsProcess f) lang [tc] tlms =
      ⟨"time_limit", 1000 * runTimeoutSeconds tlms, 0, some 1⟩ := by
  have hex : execute (runTimeoutSeconds tlms) (.runsProcess f) lang tc.input_data =
      (⟨"", "Time Limit Exceeded", -1, 1000 * runTimeoutSeconds tlms, 0⟩, ⟨true, true⟩) := by
    simp [execute, h]
  have hc1 : strContains "Time Limit Exceeded" "not found" = false := by decide
  have hc2 : strContains "Time Limit Exceeded" "Unsupported" = false := by decide
  have hc3 : strContains "Time Limit Exceeded" "Time Limit Exceeded" = true := by decide
  refine ⟨rfl, by rw [hex], by rw [hex], by rw [hex]; norm_num, ?_⟩
  simp [runJudge, runJudgeGo, hex, classifyCase, hc1, hc2, hc3]

/-- C7 witness: a 90 s program under a 1000 ms limit is killed at the
3 s enforced timeout and judged time_limit. -/
theorem c7_timeout_amended_witness :
    1000 * runTimeoutSeconds 1000 < (sleepyProc "").durationMs ∧
    runJudge (.runsProcess sleepyProc) "python" [⟨"", ""⟩] 1000 =
      ⟨"time_limit", 1000 * runTimeoutSeconds 1000, 0, some 1⟩ ∧
    (execute (runTimeoutSeconds 1000) (.runsProcess sleepyProc) "python" "").2 =
      ⟨true, true⟩ := by
  have t := c7_timeout_amended 1000 sleepyProc "python" ⟨"", ""⟩ (by decide)
  exact ⟨by decide, t.2.2.2.2, t.2.2.1⟩

/-! ### C8: output normalization -/

/-- C8 counterexample: outputs differing only in leading whitespace of
the first line compare equal under the code's normalization (the claim
says any difference other than per-line trailing whitespace and outer
blank lines must mismatch), and the judge accepts such a run. -/
theorem c8_normalization_counterexample :
    normalizeOutput "  a\nb" = normalizeOutput "a\nb" ∧
    specNormalize "  a\nb" ≠ specNormalize "a\nb" ∧
    runJudge (.runsProcess (fun _ => ⟨"  a\nb", "", 0, 10⟩)) "python" [⟨"", "a\nb"⟩] 2000 =
      ⟨"accepted", 10, 0, none⟩ := by
  decide

/-- C8 amended: the code's comparison key is the spec's normalization
(per-line trailing-whitespace strip, leading/trailing blank lines
trimmed) followed by a whole-string Python strip — so outputs equal
under the spec's normalization always compare equal, but leading
whitespace of the first line (and any outer whitespace) is also
ignored; a zero-exit run is judged wrong_answer exactly when the
normalized outputs differ. -/
theorem c8_normalization_amended :
    (∀ s : String, normalizeOutput s = pyStrip (specNormalize s)) ∧
    (∀ s t : String, specNormalize s = specNormalize t →
       normalizeOutput s = normalizeOutput t) ∧
    (∀ (out expected : String) (timeMs memKb : Nat),
       classifyCase ⟨out, "", 0, timeMs, memKb⟩ expected =
         if normalizeOutput out != normalizeOutput expected then some "wrong_answer"
         else none) := by
  refine ⟨normalizeOutput_eq_strip_spec, ?_, ?_⟩
  · intro s t h
    rw [normalizeOutput_eq_strip_spec, normalizeOutput_eq_strip_spec, h]
  · intro out expected timeMs memKb
    have h1 : strContains "" "not found" = false := by decide
    have h2 : strContains "" "Unsupported" = false := by decide
    have h3 : strContains "" "Time Limit Exceeded" = false := by decide
    have h4 : (((0 : Int)) == -1) = false := by decide
    have h5 : (((0 : Int)) != 0) = false := by decide
    simp [classifyCase, h1, h2, h3, h4, h5]

/-- C8 witness: a trailing newline is invisible to both normalizations. -/
theorem c8_normalization_amended_witness :
    specNormalize "x\n" = specNormalize "x" ∧
    normalizeOutput "x\n" = normalizeOutput "x" :=
  ⟨by decide, c8_normalization_amended.2.1 "x\n" "x" (by decide)⟩

/-! ### C9: execute never raises (local) vs typed raises (Docker) -/

/-- C9 counterexample: `DockerSandbox.execute` raises for user-code
failures — a timeout raises TimeLimitExceeded and an unsupported
language raises CodeExecutionError — rather than returning a result
dict; it does not raise only for backend unavailability. -/
theorem c9_never_raises_counterexample :
    dockerExecute .waitTimedOut = .error .timeLimitExceeded ∧
    dockerExecute (.unsupportedLanguage "ruby") =
      .error (.codeExecutionError "Unsupported language: ruby") :=
  ⟨rfl, rfl⟩

/-- C9 amended: `LocalSandbox.execute` is total — every failure
(unsupported language, missing toolchain, compile failure, compile
timeout, runtime crash, timeout, host error) comes back as a result
dict with a non-zero exit code and, where applicable, a populated
stderr — whereas `DockerSandbox.execute` raises typed exceptions
(CodeExecutionError, TimeLimitExceeded, MemoryLimitExceeded) for
container errors, timeouts, OOM kills and unsupported languages, not
only for backend unavailability. -/
theorem c9_local_total_docker_raises_amended :
    (∀ (timeoutS : Nat) (lang stdin : String),
       (execute timeoutS .unsupportedLanguage lang stdin).1.exit_code = 1 ∧
       (execute timeoutS .unsupportedLanguage lang stdin).1.stderr =
         "Unsupported language: " ++ lang) ∧
    (∀ (timeoutS : Nat) (lang stdin c : String),
       (execute timeoutS (.compilerNotFound c) lang stdin).1.exit_code = 1) ∧
    (∀ (timeoutS : Nat) (lang stdin cs : String) (rc : Int) (h : rc ≠ 0),
       (execute timeoutS (.compileFailed cs rc h) lang stdin).1.exit_code ≠ 0) ∧
    (∀ (timeoutS : Nat) (lang stdin : String),
       (execute timeoutS .compileTimedOut lang stdin).1.exit_code = 1) ∧
    (∀ (timeoutS : Nat) (lang stdin i : String),
       (execute timeoutS (.interpreterNotFound i) lang stdin).1.exit_code = 1) ∧
    (∀ (timeoutS : Nat) (lang stdin : String) (f : String → ProcRun),
       1000 * timeoutS < (f stdin).durationMs →
       (execute timeoutS (.runsProcess f) lang stdin).1.exit_code = -1 ∧
       (execute timeoutS (.runsProcess f) lang stdin).1.stderr = "Time Limit Exceeded") ∧
    (∀ (timeoutS : Nat) (lang stdin : String) (f : String → ProcRun),
       ¬ 1000 * timeoutS < (f stdin).durationMs →
       (execute timeoutS (.runsProcess f) lang stdin).1.exit_code = (f stdin).returncode) ∧
    (∀ (timeoutS : Nat) (lang stdin m : String) (d : Bool),
       (execute timeoutS (.hostError m d) lang stdin).1.exit_code = 1 ∧
       (execute timeoutS (.hostError m d) lang stdin).1.stderr = "Execution error: " ++ m) ∧
    (∀ l : String, dockerExecute (.unsupportedLanguage l) =
       .error (.codeExecutionError ("Unsupported language: " ++ l))) ∧
    dockerExecute .waitTimedOut = .error .timeLimitExceeded ∧
    dockerExecute .oomKilled = .error .memoryLimitExceeded := by
  refine ⟨fun _ _ _ => ⟨rfl, rfl⟩, fun _ _ _ _ => rfl, fun _ _ _ _ rc h => h,
    fun _ _ _ => rfl, fun _ _ _ _ => rfl, ?_, ?_, fun _ _ _ _ _ => ⟨rfl, rfl⟩,
    fun _ => rfl, rfl, rfl⟩
  · intro timeoutS lang stdin f h
    constructor <;> simp [execute, h]
  · intro timeoutS lang stdin f h
    simp [execute, h]

/-- C9 witness: a killed 90 s process surfaces as exit -1 with stderr
"Time Limit Exceeded" in the returned dict of the local executor. -/
theorem c9_local_total_docker_raises_amended_witness :
    1000 * 2 < (sleepyProc "x").durationMs ∧
    (execute 2 (.runsProcess sleepyProc) "python" "x").1.exit_code = -1 ∧
    (execute 2 (.runsProcess sleepyProc) "python" "x").1.stderr = "Time Limit Exceeded" := by
  have t := c9_local_total_docker_raises_amended.2.2.2.2.2.1 2 "python" "x" sleepyProc
    (by decide)
  exact ⟨by decide, t.1, t.2⟩

end BroSync
